import Mathlib

/-!
Verification development for the `cleanup.py` tool of the
dremio-cloud-iceberg repository (Flow B of the specification): a shallow
embedding of the S3-prefix derivation, the listing/deletion loop of
`DremioS3Cleanup.delete_s3_objects`, the query-result filtering of
`DremioS3Cleanup.query_deleted_tables`, and the control flow of
`DremioS3Cleanup.run`, together with theorems settling the spec claims.
-/

namespace DremioCleanup

/-! ## Path derivation (cleanup.py lines 261-275)

The Python code removes everything up to and including the first period of
the extracted path (or keeps the whole path when no period occurs), then
replaces every remaining period with a slash, and finally builds the full
path as "s3://" + bucket + "/" + derived. -/

/-- Characters strictly after the first '.' of the list; the whole
computation of Python `extracted_path[first_dot_index + 1:]` where
`first_dot_index = extracted_path.find('.')`, used only when a '.'
occurs. -/
def afterFirstDot : List Char → List Char
  | [] => []
  | c :: cs => if c = '.' then cs else afterFirstDot cs

/-- Replacement of a period by a slash, the character function of Python
`s3_prefix.replace('.', '/')`. -/
def dotToSlash (c : Char) : Char := if c = '.' then '/' else c

/-- Embedding of the derivation body: when the path contains a '.' take
everything after the first one, otherwise the whole path; then replace the
remaining periods with slashes (cleanup.py lines 263-272). -/
def derivePrefixChars (p : List Char) : List Char :=
  (if '.' ∈ p then afterFirstDot p else p).map dotToSlash

/-- The derived S3 key portion of an extracted path, as a string. -/
def derivePrefix (p : String) : String := ⟨derivePrefixChars p.data⟩

/-- Full S3 path built at cleanup.py line 275. -/
def s3Path (bucket pfx : String) : String := "s3://" ++ bucket ++ "/" ++ pfx

theorem afterFirstDot_append_of_not_mem (a b : List Char) (ha : '.' ∉ a) :
    afterFirstDot (a ++ '.' :: b) = b := by
  induction a with
  | nil => simp [afterFirstDot]
  | cons c cs ih =>
    have hc : c ≠ '.' := fun h => ha (h ▸ List.mem_cons_self c cs)
    have hcs : '.' ∉ cs := fun h => ha (List.mem_cons_of_mem c h)
    simp [afterFirstDot, hc, ih hcs]

theorem map_dotToSlash_of_not_mem (p : List Char) (hp : '.' ∉ p) :
    p.map dotToSlash = p := by
  induction p with
  | nil => rfl
  | cons c cs ih =>
    have hc : c ≠ '.' := fun h => hp (h ▸ List.mem_cons_self c cs)
    have hcs : '.' ∉ cs := fun h => hp (List.mem_cons_of_mem c h)
    simp [dotToSlash, hc, ih hcs]

theorem derivePrefixChars_of_not_mem (p : List Char) (hp : '.' ∉ p) :
    derivePrefixChars p = p := by
  simp [derivePrefixChars, hp, map_dotToSlash_of_not_mem p hp]

theorem derivePrefixChars_split (a b : List Char) (ha : '.' ∉ a) :
    derivePrefixChars (a ++ '.' :: b) = b.map dotToSlash := by
  have hmem : '.' ∈ a ++ '.' :: b := List.mem_append_right a (List.mem_cons_self _ _)
  simp [derivePrefixChars, hmem, afterFirstDot_append_of_not_mem a b ha]

/-! ## Deduplication of extracted paths (cleanup.py line 250)

Python `df['extracted_path'].dropna().unique()`: drop the nulls, then keep
the first occurrence of every distinct value, in first-occurrence order. -/

/-- First-occurrence deduplication with an accumulator of already-seen
values, the semantics of pandas `unique()` on a column. -/
def uniquePathsAux (seen : List String) : List String → List String
  | [] => []
  | x :: xs =>
    if x ∈ seen then uniquePathsAux seen xs
    else x :: uniquePathsAux (x :: seen) xs

/-- The list of paths the deletion loop iterates over: the column with nulls
dropped, deduplicated keeping first occurrences. -/
def uniquePaths (rows : List (Option String)) : List String :=
  uniquePathsAux [] (rows.filterMap id)

/-! ## The S3 listing/deletion loop (cleanup.py lines 256-326)

The storage service is an environment: listing a key portion either fails
(the exception caught at line 316) or returns the keys found under it, and
deleting one key either succeeds or fails (the exception caught at line
312). Each storage call the loop issues is recorded as an event. -/

/-- Abstract storage backend: results of `list_objects_v2` pagination per
key portion, and of `delete_object` per key. -/
structure S3Env where
  listObjects : String → Except Unit (List String)
  deleteObject : String → Except Unit Unit

/-- One storage call: a recursive listing under a key portion, or one
object deletion. -/
inductive S3Op
  | list (pfx : String)
  | delete (key : String)
deriving DecidableEq

/-- Whether an event is an object deletion. -/
def S3Op.isDelete : S3Op → Bool
  | .list _ => false
  | .delete _ => true

/-- The two counters of `delete_s3_objects` (lines 258-259). -/
structure Counts where
  deleted : Nat
  errors : Nat
deriving DecidableEq

/-- The inner live-mode loop (lines 307-314): one `delete_object` call per
listed key; a success increments `deleted_count`, a failure is caught and
increments `error_count`; either way the loop continues. -/
def deleteLoop (env : S3Env) : Counts → List String → Counts × List S3Op
  | c, [] => (c, [])
  | c, k :: ks =>
    let c' := match env.deleteObject k with
      | .ok _ => { c with deleted := c.deleted + 1 }
      | .error _ => { c with errors := c.errors + 1 }
    let r := deleteLoop env c' ks
    (r.1, .delete k :: r.2)

/-- The body of the per-path loop (lines 261-318): derive the key portion,
list everything under it; a listing failure is caught and counted as one
error; an empty listing changes nothing; in dry-run mode the found count is
added to `deleted_count` with no delete call; in live mode each key is
deleted individually. -/
def processPrefix (env : S3Env) (dryRun : Bool) (c : Counts) (extracted : String) :
    Counts × List S3Op :=
  let pfx := derivePrefix extracted
  match env.listObjects pfx with
  | .error _ => ({ c with errors := c.errors + 1 }, [.list pfx])
  | .ok objs =>
    if objs.isEmpty then (c, [.list pfx])
    else if dryRun then
      ({ c with deleted := c.deleted + objs.length }, [.list pfx])
    else
      let r := deleteLoop env c objs
      (r.1, .list pfx :: r.2)

/-- The loop over all unique extracted paths, threading the counters. -/
def deleteS3ObjectsAux (env : S3Env) (dryRun : Bool) :
    Counts → List String → Counts × List S3Op
  | c, [] => (c, [])
  | c, p :: ps =>
    let r := processPrefix env dryRun c p
    let r' := deleteS3ObjectsAux env dryRun r.1 ps
    (r'.1, r.2 ++ r'.2)

/-- The per-path loop of `DremioS3Cleanup.delete_s3_objects`
(lines 256-326) from zero counters: final counters and the sequence of
storage calls issued. This is what the function does once execution
reaches the loop, that is once the line-252 truthiness test of the numpy
array has passed; `deleteS3ObjectsChecked` below embeds the whole function
including that test. -/
def deleteS3Objects (env : S3Env) (rows : List (Option String)) (dryRun : Bool) :
    Counts × List S3Op :=
  deleteS3ObjectsAux env dryRun ⟨0, 0⟩ (uniquePaths rows)

/-- Python truth test applied at line 252 (`if not extracted_paths:`) to
the numpy array returned by `dropna().unique()`: the value of
`not extracted_paths`. An empty array is falsy, so `not` yields true and
the function early-returns; a one-element array takes its element's
truthiness, and a string is falsy exactly when empty; an array with two or
more elements raises ValueError — the truth value of an array with more
than one element is ambiguous. -/
def ndarrayNot : List String → Except Unit Bool
  | [] => .ok true
  | [p] => .ok (p = "")
  | _ :: _ :: _ => .error ()

/-- Embedding of the whole of `DremioS3Cleanup.delete_s3_objects`
(lines 239-326), including the line-252 truthiness test: the empty
dataframe and missing column returns (lines 241-247) and a passing
truthiness test (empty array, or lone falsy element) return with no
storage call and zero counters; a one-element array with a non-empty path
runs the loop; two or more unique paths raise ValueError before any
storage call, and the exception escapes the function (reaching the
top-level handler of `run`). -/
def deleteS3ObjectsChecked (env : S3Env) (rows : List (Option String)) (dryRun : Bool) :
    Except Unit (Counts × List S3Op) :=
  match ndarrayNot (uniquePaths rows) with
  | .error _ => .error ()
  | .ok true => .ok (⟨0, 0⟩, [])
  | .ok false => .ok (deleteS3ObjectsAux env dryRun ⟨0, 0⟩ (uniquePaths rows))

/-- Keys the environment reports under the derived key portion of a path,
empty when the listing fails. -/
def listedObjs (env : S3Env) (p : String) : List String :=
  match env.listObjects (derivePrefix p) with
  | .ok objs => objs
  | .error _ => []

/-- Whether listing under the derived key portion of a path fails. -/
def listFails (env : S3Env) (p : String) : Bool :=
  match env.listObjects (derivePrefix p) with
  | .ok _ => false
  | .error _ => true

/-- Whether deleting one key fails. -/
def objFails (env : S3Env) (k : String) : Bool :=
  match env.deleteObject k with
  | .ok _ => false
  | .error _ => true

end DremioCleanup

namespace DremioCleanup

theorem deleteLoop_ops (env : S3Env) (ks : List String) : ∀ c : Counts,
    (deleteLoop env c ks).2 = ks.map S3Op.delete := by
  induction ks with
  | nil => intro c; rfl
  | cons k ks ih =>
    intro c
    cases h : env.deleteObject k <;> simp [deleteLoop, h, ih]

theorem deleteLoop_sum (env : S3Env) (ks : List String) : ∀ c : Counts,
    (deleteLoop env c ks).1.deleted + (deleteLoop env c ks).1.errors =
      c.deleted + c.errors + ks.length := by
  induction ks with
  | nil => intro c; simp [deleteLoop]
  | cons k ks ih =>
    intro c
    cases h : env.deleteObject k <;> simp [deleteLoop, h, ih] <;> omega

theorem deleteLoop_errors (env : S3Env) (ks : List String) : ∀ c : Counts,
    (deleteLoop env c ks).1.errors = c.errors + (ks.filter (objFails env)).length := by
  induction ks with
  | nil => intro c; simp [deleteLoop]
  | cons k ks ih =>
    intro c
    cases h : env.deleteObject k <;>
      simp [deleteLoop, h, ih, List.filter_cons, objFails]
    all_goals omega

end DremioCleanup

namespace DremioCleanup

theorem processPrefix_filter_list (env : S3Env) (d : Bool) (c : Counts) (p : String) :
    (processPrefix env d c p).2.filter (fun op => !op.isDelete) =
      [S3Op.list (derivePrefix p)] := by
  cases h : env.listObjects (derivePrefix p) with
  | error e => simp [processPrefix, h, S3Op.isDelete]
  | ok objs =>
    by_cases he : objs.isEmpty
    · simp [processPrefix, h, he, S3Op.isDelete]
    · cases d with
      | true => simp [processPrefix, h, he, S3Op.isDelete]
      | false =>
        simp [processPrefix, h, he, S3Op.isDelete, deleteLoop_ops,
          List.filter_cons, List.filter_map]

theorem processPrefix_deletes_live (env : S3Env) (c : Counts) (p : String) :
    (processPrefix env false c p).2.filter S3Op.isDelete =
      (listedObjs env p).map S3Op.delete := by
  cases h : env.listObjects (derivePrefix p) with
  | error e => simp [processPrefix, h, S3Op.isDelete, listedObjs]
  | ok objs =>
    by_cases he : objs.isEmpty
    · have : objs = [] := List.isEmpty_iff.mp he
      simp [processPrefix, h, he, S3Op.isDelete, listedObjs, this]
    · have hall : List.filter (S3Op.isDelete ∘ S3Op.delete) objs = objs :=
        List.filter_eq_self.mpr (fun a _ => rfl)
      simp [processPrefix, h, he, S3Op.isDelete, listedObjs, deleteLoop_ops,
        List.filter_cons, List.filter_map, hall]

theorem processPrefix_no_delete_dry (env : S3Env) (c : Counts) (p : String) :
    (processPrefix env true c p).2.filter S3Op.isDelete = [] := by
  cases h : env.listObjects (derivePrefix p) with
  | error e => simp [processPrefix, h, S3Op.isDelete]
  | ok objs =>
    by_cases he : objs.isEmpty <;> simp [processPrefix, h, he, S3Op.isDelete]

theorem processPrefix_sum_ok (env : S3Env) (d : Bool) (c : Counts) (p : String)
    (objs : List String) (h : env.listObjects (derivePrefix p) = .ok objs) :
    (processPrefix env d c p).1.deleted + (processPrefix env d c p).1.errors =
      c.deleted + c.errors + objs.length := by
  by_cases he : objs.isEmpty
  · have : objs = [] := List.isEmpty_iff.mp he
    subst this
    simp [processPrefix, h]
  · cases d with
    | true => simp [processPrefix, h, he]; omega
    | false => simp [processPrefix, h, he, deleteLoop_sum]

theorem processPrefix_errors_live (env : S3Env) (c : Counts) (p : String) :
    (processPrefix env false c p).1.errors =
      c.errors + (if listFails env p then 1 else 0) +
        ((listedObjs env p).filter (objFails env)).length := by
  cases h : env.listObjects (derivePrefix p) with
  | error e => simp [processPrefix, h, listFails, listedObjs]
  | ok objs =>
    by_cases he : objs.isEmpty
    · have : objs = [] := List.isEmpty_iff.mp he
      subst this
      simp [processPrefix, h, listFails, listedObjs]
    · simp [processPrefix, h, he, listFails, listedObjs, deleteLoop_errors]

theorem processPrefix_deleted_dry (env : S3Env) (c : Counts) (p : String) :
    (processPrefix env true c p).1.deleted = c.deleted + (listedObjs env p).length := by
  cases h : env.listObjects (derivePrefix p) with
  | error e => simp [processPrefix, h, listedObjs]
  | ok objs =>
    by_cases he : objs.isEmpty
    · have : objs = [] := List.isEmpty_iff.mp he
      subst this
      simp [processPrefix, h, listedObjs]
    · simp [processPrefix, h, he, listedObjs]

end DremioCleanup

namespace DremioCleanup

theorem deleteS3ObjectsAux_filter_list (env : S3Env) (d : Bool) (ps : List String) :
    ∀ c : Counts, (deleteS3ObjectsAux env d c ps).2.filter (fun op => !op.isDelete) =
      ps.map (fun p => S3Op.list (derivePrefix p)) := by
  induction ps with
  | nil => intro c; rfl
  | cons p ps ih =>
    intro c
    simp [deleteS3ObjectsAux, List.filter_append, ih, processPrefix_filter_list]

theorem deleteS3ObjectsAux_deletes_live (env : S3Env) (ps : List String) :
    ∀ c : Counts, (deleteS3ObjectsAux env false c ps).2.filter S3Op.isDelete =
      (ps.flatMap (listedObjs env)).map S3Op.delete := by
  induction ps with
  | nil => intro c; rfl
  | cons p ps ih =>
    intro c
    simp [deleteS3ObjectsAux, List.filter_append, ih, processPrefix_deletes_live]

theorem deleteS3ObjectsAux_no_delete_dry (env : S3Env) (ps : List String) :
    ∀ c : Counts, (deleteS3ObjectsAux env true c ps).2.filter S3Op.isDelete = [] := by
  induction ps with
  | nil => intro c; rfl
  | cons p ps ih =>
    intro c
    simp [deleteS3ObjectsAux, List.filter_append, ih, processPrefix_no_delete_dry]

theorem deleteS3ObjectsAux_errors_live (env : S3Env) (ps : List String) :
    ∀ c : Counts, (deleteS3ObjectsAux env false c ps).1.errors =
      c.errors + (ps.filter (listFails env)).length +
        ((ps.flatMap (listedObjs env)).filter (objFails env)).length := by
  induction ps with
  | nil => intro c; simp [deleteS3ObjectsAux]
  | cons p ps ih =>
    intro c
    simp [deleteS3ObjectsAux, ih, processPrefix_errors_live, List.filter_cons,
      List.filter_append]
    by_cases hf : listFails env p <;> simp [hf] <;> omega

theorem deleteS3ObjectsAux_deleted_dry (env : S3Env) (ps : List String) :
    ∀ c : Counts, (deleteS3ObjectsAux env true c ps).1.deleted =
      c.deleted + (ps.flatMap (listedObjs env)).length := by
  induction ps with
  | nil => intro c; simp [deleteS3ObjectsAux]
  | cons p ps ih =>
    intro c
    simp [deleteS3ObjectsAux, ih, processPrefix_deleted_dry]
    omega

end DremioCleanup

namespace DremioCleanup

theorem mem_uniquePathsAux (l : List String) : ∀ (seen : List String) (x : String),
    x ∈ uniquePathsAux seen l ↔ x ∈ l ∧ x ∉ seen := by
  induction l with
  | nil => intro seen x; simp [uniquePathsAux]
  | cons y ys ih =>
    intro seen x
    by_cases hy : y ∈ seen
    · by_cases hxy : x = y
      · subst hxy
        simp [uniquePathsAux, hy, ih]
      · simp [uniquePathsAux, hy, ih, hxy]
    · by_cases hxy : x = y
      · subst hxy
        simp [uniquePathsAux, hy]
      · simp [uniquePathsAux, hy, ih, hxy]

theorem nodup_uniquePathsAux (l : List String) : ∀ seen : List String,
    (uniquePathsAux seen l).Nodup := by
  induction l with
  | nil => intro seen; simp [uniquePathsAux]
  | cons y ys ih =>
    intro seen
    by_cases hy : y ∈ seen
    · simp [uniquePathsAux, hy, ih]
    · simp only [uniquePathsAux, hy, if_neg, Bool.false_eq_true, not_false_eq_true]
      refine List.nodup_cons.mpr ⟨?_, ih (y :: seen)⟩
      intro hmem
      exact ((mem_uniquePathsAux ys (y :: seen) y).mp hmem).2 (List.mem_cons_self y seen)

theorem congr_uniquePathsAux (l : List String) : ∀ s₁ s₂ : List String,
    (∀ x, x ∈ s₁ ↔ x ∈ s₂) → uniquePathsAux s₁ l = uniquePathsAux s₂ l := by
  induction l with
  | nil => intro s₁ s₂ _; rfl
  | cons y ys ih =>
    intro s₁ s₂ h
    by_cases hy : y ∈ s₁
    · have hy₂ : y ∈ s₂ := (h y).mp hy
      simp [uniquePathsAux, hy, hy₂, ih s₁ s₂ h]
    · have hy₂ : y ∉ s₂ := fun hm => hy ((h y).mpr hm)
      have hcons : ∀ x, x ∈ y :: s₁ ↔ x ∈ y :: s₂ := by
        intro x
        simp [List.mem_cons, h x]
      simp [uniquePathsAux, hy, hy₂, ih (y :: s₁) (y :: s₂) hcons]

theorem append_uniquePathsAux (l : List String) : ∀ (m seen : List String),
    uniquePathsAux seen (l ++ m) =
      uniquePathsAux seen l ++ uniquePathsAux (l ++ seen) m := by
  induction l with
  | nil => intro m seen; simp [uniquePathsAux]
  | cons y ys ih =>
    intro m seen
    simp only [List.cons_append]
    by_cases hy : y ∈ seen
    · have heq : ∀ x, x ∈ ys ++ seen ↔ x ∈ y :: (ys ++ seen) := by
        intro x
        constructor
        · intro hx
          exact List.mem_cons_of_mem y hx
        · intro hx
          rcases List.mem_cons.mp hx with rfl | hx
          · exact List.mem_append_right ys hy
          · exact hx
      calc uniquePathsAux seen (y :: (ys ++ m))
          = uniquePathsAux seen (ys ++ m) := by simp [uniquePathsAux, hy]
        _ = uniquePathsAux seen ys ++ uniquePathsAux (ys ++ seen) m := ih m seen
        _ = uniquePathsAux seen ys ++ uniquePathsAux (y :: (ys ++ seen)) m := by
              rw [congr_uniquePathsAux m (ys ++ seen) (y :: (ys ++ seen)) heq]
        _ = uniquePathsAux seen (y :: ys) ++ uniquePathsAux (y :: (ys ++ seen)) m := by
              simp [uniquePathsAux, hy]
    · have heq : ∀ x, x ∈ ys ++ y :: seen ↔ x ∈ y :: (ys ++ seen) := by
        intro x
        simp [List.mem_append, List.mem_cons]
        tauto
      calc uniquePathsAux seen (y :: (ys ++ m))
          = y :: uniquePathsAux (y :: seen) (ys ++ m) := by simp [uniquePathsAux, hy]
        _ = y :: (uniquePathsAux (y :: seen) ys ++ uniquePathsAux (ys ++ y :: seen) m) := by
              rw [ih m (y :: seen)]
        _ = y :: uniquePathsAux (y :: seen) ys ++ uniquePathsAux (y :: (ys ++ seen)) m := by
              rw [congr_uniquePathsAux m (ys ++ y :: seen) (y :: (ys ++ seen)) heq]
              simp
        _ = uniquePathsAux seen (y :: ys) ++ uniquePathsAux (y :: (ys ++ seen)) m := by
              simp [uniquePathsAux, hy]

theorem allSeen_uniquePathsAux (m : List String) : ∀ seen : List String,
    (∀ y ∈ m, y ∈ seen) → uniquePathsAux seen m = [] := by
  induction m with
  | nil => intro seen _; rfl
  | cons y ys ih =>
    intro seen h
    have hy : y ∈ seen := h y (List.mem_cons_self y ys)
    simp [uniquePathsAux, hy, ih seen (fun z hz => h z (List.mem_cons_of_mem y hz))]

theorem uniquePaths_append_of_subset (rows extra : List (Option String))
    (h : ∀ o ∈ extra, o ∈ rows) : uniquePaths (rows ++ extra) = uniquePaths rows := by
  unfold uniquePaths
  rw [List.filterMap_append, append_uniquePathsAux]
  have hsub : ∀ y ∈ List.filterMap id extra, y ∈ List.filterMap id rows ++ ([] : List String) := by
    intro y hy
    rcases List.mem_filterMap.mp hy with ⟨o, ho, hoy⟩
    exact List.mem_append_left _ (List.mem_filterMap.mpr ⟨o, h o ho, hoy⟩)
  rw [allSeen_uniquePathsAux _ _ hsub]
  simp

end DremioCleanup

namespace DremioCleanup

/-! ## Query-result filtering (cleanup.py lines 200-217)

After the extracted_path column is cast to strings, a non-empty
filter value keeps exactly the rows whose extracted_path starts with it;
Python `df['extracted_path'].str.startswith(filter_prefix, na=False)` is a
case-sensitive comparison. An empty filter value is falsy, so no filtering
happens. -/

/-- Python `r.startswith(fp)`: the characters of fp are an initial segment
of the characters of r, compared exactly. -/
def startswith (fp r : String) : Bool := fp.data.isPrefixOf r.data

/-- Embedding of the filtering step of `query_deleted_tables`, as a function
of the extracted_path column. -/
def queryFilter (filterPfx : String) (rows : List String) : List String :=
  if filterPfx = "" then rows
  else rows.filter (fun r => startswith filterPfx r)

/-! ## The main control flow (cleanup.py lines 338-387)

`run` is embedded as a function of an environment of outcomes: whether
config.yaml exists, whether the Dremio connection succeeds (which is when
`self.flight_client` is assigned), whether the S3 client setup succeeds,
whether the query succeeds, the extracted_path column of the query result,
an exception possibly raised around the display/save step or around the S3
phase (a KeyboardInterrupt or an unexpected exception reaching the
top-level handlers — for the S3 phase this includes the line-252
ValueError raised before any storage call whenever the query yields two or
more unique extracted paths), and the storage backend. The returned state records
whether a flight client was established and closed, the CSV file written,
and the storage calls issued. -/

/-- What escapes a phase of the try-block: nothing, a KeyboardInterrupt, or
an unexpected exception; the latter two reach the handlers at lines
378-383. -/
inductive PhaseExn
  | normal
  | interrupt
  | unexpected
deriving DecidableEq

/-- Outcomes of the external world during one invocation of `run`. -/
structure RunEnv where
  configPresent : Bool
  connectOk : Bool
  s3Ok : Bool
  queryOk : Bool
  rows : List String
  saveExn : PhaseExn
  deleteExn : PhaseExn
  s3env : S3Env

/-- The command-line flags of `parse_arguments` (lines 37-59): bucket is
required, filterPfx defaults to the empty string, dryRun and delete are
store_true flags defaulting to false. -/
structure Args where
  bucket : String
  filterPfx : String
  dryRun : Bool
  delete : Bool

/-- Observable effects of one invocation of `run`. -/
structure RunState where
  clientEstablished : Bool
  clientClosed : Bool
  csvFile : Option String
  s3ops : List S3Op
deriving DecidableEq

/-- Embedding of `save_results` (lines 328-336): nothing is written for an
empty result set; otherwise the fixed file name is used. -/
def saveResults (rows : List String) : Option String :=
  if rows.isEmpty then none else some "results.csv"

/-- Embedding of `DremioS3Cleanup.run` (lines 338-387). The branches mirror
the source: a missing config or failed connection returns 1 with no client
established; S3 setup runs only when delete or dry-run was requested and
its failure returns 1; a failed query returns 1; the two exception handlers
return 1; otherwise the result set is saved, the S3 phase runs only when
delete or dry-run was requested, with dry_run = not args.delete
(line 374), and 0 is returned. The finally block closes the flight client
whenever it was established. -/
def run (env : RunEnv) (args : Args) : Nat × RunState :=
  if env.configPresent && env.connectOk then
    let fin := fun (code : Nat) (csv : Option String) (ops : List S3Op) =>
      (code, RunState.mk true true csv ops)
    if (args.delete || args.dryRun) && !env.s3Ok then fin 1 none []
    else if !env.queryOk then fin 1 none []
    else
      match env.saveExn with
      | .interrupt => fin 1 none []
      | .unexpected => fin 1 none []
      | .normal =>
        let results := queryFilter args.filterPfx env.rows
        let csv := saveResults results
        if args.delete || args.dryRun then
          match env.deleteExn with
          | .interrupt => fin 1 csv []
          | .unexpected => fin 1 csv []
          | .normal =>
            fin 0 csv (deleteS3Objects env.s3env (results.map some) (!args.delete)).2
        else fin 0 csv []
  else (1, RunState.mk false false none [])

end DremioCleanup

namespace DremioCleanup

/-! ## Claim theorems about the path derivation and the deletion loop -/

/-- C3: the Flow B path derivation maps every extracted logical path to an
S3 location by discarding everything up to and including the first period,
replacing every remaining period with a slash, and prepending
"s3://" + bucket + "/": on "source.schema.table" with bucket "b" it yields
"s3://b/schema/table", on "source.a.b.c" it yields "s3://b/a/b/c", and on a
path containing no period the path is kept unchanged after the bucket. -/
theorem flow_b_path_derivation (bucket : String) :
    s3Path "b" (derivePrefix "source.schema.table") = "s3://b/schema/table" ∧
    s3Path "b" (derivePrefix "source.a.b.c") = "s3://b/a/b/c" ∧
    (∀ p : String, '.' ∉ p.data →
      s3Path bucket (derivePrefix p) = "s3://" ++ bucket ++ "/" ++ p) ∧
    (∀ a b : List Char, '.' ∉ a →
      derivePrefixChars (a ++ '.' :: b) = b.map dotToSlash) := by
  refine ⟨by decide, by decide, ?_, derivePrefixChars_split⟩
  intro p hp
  have h1 : derivePrefix p = p := by
    show (⟨derivePrefixChars p.data⟩ : String) = p
    rw [derivePrefixChars_of_not_mem p.data hp]
  rw [h1]
  rfl

/-- Storage backend holding one object that every listing reports, with
deletions succeeding; used to evaluate the loop at degenerate inputs. -/
def wideListEnv : S3Env where
  listObjects := fun _ => .ok ["unrelated/object.parquet"]
  deleteObject := fun _ => .ok ()

/-- C1 (code bug): the claim and the spec require empty or single-segment
derived targets to be rejected before any storage call, but the code has no
such guard: the extracted path "source." derives the empty key portion
(the bucket root) and the loop still issues the listing for it and deletes
what the listing reports, and the single-segment path "source" is likewise
used as a deletion target. -/
theorem degenerate_prefix_reaches_storage :
    derivePrefix "source." = "" ∧
    derivePrefix "source" = "source" ∧
    (deleteS3Objects wideListEnv [some "source."] false).2 =
      [S3Op.list "", S3Op.delete "unrelated/object.parquet"] ∧
    (deleteS3Objects wideListEnv [some "source"] false).2 =
      [S3Op.list "source", S3Op.delete "unrelated/object.parquet"] :=
  ⟨by decide, by decide, rfl, rfl⟩

/-- Accounting of the per-path loop (lines 256-326), the code that runs
once the line-252 truthiness test has passed: in dry-run mode it issues no
delete call and only counts the listed candidates; in live mode it issues
exactly one delete call per listed object, in listing order, and for every
path whose listing succeeds the per-path increase of the deleted counter
plus the error counter equals the number of objects the listing found. -/
theorem dry_run_and_live_accounting (env : S3Env) (rows : List (Option String)) :
    (deleteS3Objects env rows true).2.filter S3Op.isDelete = [] ∧
    (deleteS3Objects env rows true).1.deleted =
      ((uniquePaths rows).flatMap (listedObjs env)).length ∧
    (deleteS3Objects env rows false).2.filter S3Op.isDelete =
      ((uniquePaths rows).flatMap (listedObjs env)).map S3Op.delete ∧
    ∀ (p : String) (objs : List String) (c : Counts),
      env.listObjects (derivePrefix p) = .ok objs →
        (processPrefix env false c p).1.deleted +
            (processPrefix env false c p).1.errors =
          c.deleted + c.errors + objs.length := by
  refine ⟨deleteS3ObjectsAux_no_delete_dry env _ _, ?_,
    deleteS3ObjectsAux_deletes_live env _ _, ?_⟩
  · have h := deleteS3ObjectsAux_deleted_dry env (uniquePaths rows) ⟨0, 0⟩
    simpa [deleteS3Objects] using h
  · intro p objs c h
    exact processPrefix_sum_ok env false c p objs h

/-- Failure isolation inside the per-path loop (lines 256-326): a listing
failure for one path is caught and counted, and every path in the sequence
still gets its own listing call, in order; the final error counter is the
number of paths whose listing failed plus the number of listed objects
whose individual deletion failed. -/
theorem prefix_failure_isolation (env : S3Env) (rows : List (Option String)) :
    (∀ d : Bool, (deleteS3Objects env rows d).2.filter (fun op => !op.isDelete) =
      (uniquePaths rows).map (fun p => S3Op.list (derivePrefix p))) ∧
    (deleteS3Objects env rows false).1.errors =
      ((uniquePaths rows).filter (listFails env)).length +
        (((uniquePaths rows).flatMap (listedObjs env)).filter (objFails env)).length := by
  constructor
  · intro d
    exact deleteS3ObjectsAux_filter_list env d _ _
  · have h := deleteS3ObjectsAux_errors_live env (uniquePaths rows) ⟨0, 0⟩
    simpa [deleteS3Objects] using h

/-- C6: with a non-empty filter value, a row is retained by the
query-result filtering exactly when its extracted_path starts with the
filter value; the comparison is case-sensitive, as the concrete evaluation
shows. -/
theorem filter_prefix_semantics (fp : String) (rows : List String) (r : String)
    (h : fp ≠ "") :
    (r ∈ queryFilter fp rows ↔ r ∈ rows ∧ fp.data <+: r.data) ∧
    queryFilter "ab" ["abX", "ABX", "aBx"] = ["abX"] := by
  constructor
  · simp [queryFilter, h, List.mem_filter, startswith, List.isPrefixOf_iff_prefix]
  · decide

/-- Witness for C6 at a concrete filter value and row list. -/
theorem filter_prefix_semantics_witness :
    (("abc" : String) ∈ queryFilter "ab" ["abc", "ABc"] ↔
      ("abc" : String) ∈ ["abc", "ABc"] ∧ ("ab" : String).data <+: ("abc" : String).data) ∧
    queryFilter "ab" ["abX", "ABX", "aBx"] = ["abX"] :=
  filter_prefix_semantics "ab" ["abc", "ABc"] "abc" (by decide)

/-- Deduplication at line 250 feeding the per-path loop: every distinct
non-null value occurs exactly once in the deduplicated list, and appending
duplicate rows changes neither that list nor anything the loop does. -/
theorem dedup_paths_invariance (rows extra : List (Option String)) :
    (∀ x ∈ rows.filterMap id, (uniquePaths rows).count x = 1) ∧
    ((∀ o ∈ extra, o ∈ rows) → uniquePaths (rows ++ extra) = uniquePaths rows) ∧
    ((∀ o ∈ extra, o ∈ rows) → ∀ (env : S3Env) (d : Bool),
      deleteS3Objects env (rows ++ extra) d = deleteS3Objects env rows d) := by
  refine ⟨?_, uniquePaths_append_of_subset rows extra, ?_⟩
  · intro x hx
    exact List.count_eq_one_of_mem (nodup_uniquePathsAux _ [])
      ((mem_uniquePathsAux _ [] x).mpr ⟨hx, by simp⟩)
  · intro h env d
    unfold deleteS3Objects
    rw [uniquePaths_append_of_subset rows extra h]

end DremioCleanup

namespace DremioCleanup

/-! ## Claim theorems about the main control flow -/

/-- Storage backend whose every listing finds one candidate object, used by
the concrete run environments below. -/
def previewS3Env : S3Env where
  listObjects := fun _ => .ok ["folder/tbl/data.parquet"]
  deleteObject := fun _ => .ok ()

/-- Fully healthy external world with one deleted-table row. -/
def c5Env : RunEnv :=
  ⟨true, true, true, true, ["src.folder.tbl"], .normal, .normal, previewS3Env⟩

/-- Flags as given by `--bucket mybucket` alone: neither dry-run nor
delete. -/
def c5Args : Args := ⟨"mybucket", "", false, false⟩

/-- C5 counterexample: with --bucket alone (neither --dry-run nor --delete)
the run succeeds but issues no storage call at all — in particular no
listing — even though a candidate object exists under the derived path, so
the run does not behave as a dry-run preview. -/
theorem default_flags_no_preview_cex :
    (run c5Env c5Args).1 = 0 ∧
    (run c5Env c5Args).2.s3ops = [] ∧
    c5Env.s3env.listObjects (derivePrefix "src.folder.tbl") =
      Except.ok ["folder/tbl/data.parquet"] :=
  ⟨rfl, rfl, rfl⟩

/-- C5 (amended): when neither --dry-run nor --delete is given the S3 phase
is skipped entirely — no listing and no deletion, hence in particular no
delete call; when --delete is given it overrides --dry-run and the S3
phase runs with dry_run = false, executing the deletions. -/
theorem s3_phase_gating (env : RunEnv) (args : Args) :
    (args.delete = false → args.dryRun = false → (run env args).2.s3ops = []) ∧
    (args.delete = true → env.configPresent = true → env.connectOk = true →
      env.s3Ok = true → env.queryOk = true → env.saveExn = .normal →
      env.deleteExn = .normal →
      (run env args).2.s3ops =
        (deleteS3Objects env.s3env
          ((queryFilter args.filterPfx env.rows).map some) false).2) := by
  obtain ⟨cp, co, s3, q, rows, se, de, s3e⟩ := env
  obtain ⟨b, fp, dr, del⟩ := args
  constructor
  · rintro rfl rfl
    cases cp <;> cases co <;> cases s3 <;> cases q <;> cases se <;> cases de <;>
      simp [run]
  · rintro rfl rfl rfl rfl rfl rfl rfl
    cases dr <;> simp [run]

/-- Healthy external world whose query returns no rows. -/
def c7Env : RunEnv := ⟨true, true, true, true, [], .normal, .normal, previewS3Env⟩

/-- Flags `--bucket mybucket --dry-run`. -/
def c7Args : Args := ⟨"mybucket", "", true, false⟩

/-- C7 counterexample: a run that succeeds (exit code 0) with an empty
filtered result set writes no CSV file, because `save_results` returns
early on an empty dataframe. -/
theorem empty_result_no_csv_cex :
    (run c7Env c7Args).1 = 0 ∧ (run c7Env c7Args).2.csvFile = none :=
  ⟨rfl, rfl⟩

/-- C7 (amended): every successful run writes the filtered result set to
the fixed file name results.csv when that set is non-empty, and writes no
CSV file when it is empty. -/
theorem csv_write_on_success (env : RunEnv) (args : Args) :
    ((run env args).1 = 0 →
      (run env args).2.csvFile = saveResults (queryFilter args.filterPfx env.rows)) ∧
    (∀ rows : List String, rows ≠ [] → saveResults rows = some "results.csv") := by
  constructor
  · obtain ⟨cp, co, s3, q, rows, se, de, s3e⟩ := env
    obtain ⟨b, fp, dr, del⟩ := args
    cases cp <;> cases co <;> cases s3 <;> cases q <;> cases se <;> cases de <;>
      cases dr <;> cases del <;> intro h <;> simp [run] at h ⊢
  · intro rows hr
    simp [saveResults, hr]

/-- C8: the run returns exit code 0 exactly when everything succeeds, and
otherwise exit code 1 — for a missing config file, a connection failure, an
S3 setup failure, a query failure, an interruption, or an unexpected
exception — and nothing else: every outcome of the environment yields 0 or
1. -/
theorem run_exit_codes (env : RunEnv) (args : Args) :
    ((run env args).1 = 0 ∨ (run env args).1 = 1) ∧
    ((run env args).1 = 0 ↔
      env.configPresent = true ∧ env.connectOk = true ∧
      ((args.delete || args.dryRun) = true → env.s3Ok = true) ∧
      env.queryOk = true ∧ env.saveExn = .normal ∧
      ((args.delete || args.dryRun) = true → env.deleteExn = .normal)) := by
  obtain ⟨cp, co, s3, q, rows, se, de, s3e⟩ := env
  obtain ⟨b, fp, dr, del⟩ := args
  cases cp <;> cases co <;> cases s3 <;> cases q <;> cases se <;> cases de <;>
    cases dr <;> cases del <;> simp [run]

/-- C9: the flight client is established exactly when the connection
succeeds, and on every exit path of the run an established client is
closed before the function returns. -/
theorem session_closed_on_exit (env : RunEnv) (args : Args) :
    (run env args).2.clientEstablished = (env.configPresent && env.connectOk) ∧
    ((run env args).2.clientEstablished = true →
      (run env args).2.clientClosed = true) := by
  obtain ⟨cp, co, s3, q, rows, se, de, s3e⟩ := env
  obtain ⟨b, fp, dr, del⟩ := args
  cases cp <;> cases co <;> cases s3 <;> cases q <;> cases se <;> cases de <;>
    cases dr <;> cases del <;> simp [run]

end DremioCleanup

namespace DremioCleanup

/-! ## Claim theorems about the line-252 truthiness test -/

/-- C2 (code bug): with two distinct non-null extracted paths the
truthiness test of the numpy array at line 252 raises ValueError before
any storage call, in dry-run and live mode alike, so nothing is
enumerated, counted or deleted there — while with either path alone the
dry-run enumeration the claim describes does happen. -/
theorem two_paths_dry_run_no_enumeration :
    deleteS3ObjectsChecked wideListEnv [some "src.a", some "src.b"] true = .error () ∧
    deleteS3ObjectsChecked wideListEnv [some "src.a", some "src.b"] false = .error () ∧
    deleteS3ObjectsChecked wideListEnv [some "src.a"] true =
      .ok (⟨1, 0⟩, [S3Op.list "a"]) :=
  ⟨rfl, rfl, rfl⟩

/-- C4 (code bug): a run over several derived targets never happens: with
two unique paths the function raises at line 252 and issues no listing for
either target, although each path alone is processed fine — so no
subsequent target is ever reached, not because of a storage failure but
because the loop never starts. -/
theorem two_paths_no_target_processed :
    deleteS3ObjectsChecked wideListEnv [some "a.x", some "b.y"] false = .error () ∧
    deleteS3ObjectsChecked wideListEnv [some "a.x"] false =
      .ok (⟨1, 0⟩, [S3Op.list "x", S3Op.delete "unrelated/object.parquet"]) ∧
    deleteS3ObjectsChecked wideListEnv [some "b.y"] false =
      .ok (⟨1, 0⟩, [S3Op.list "y", S3Op.delete "unrelated/object.parquet"]) :=
  ⟨rfl, rfl, rfl⟩

/-- C10 (code bug): line 250 does deduplicate — duplicate rows collapse to
one occurrence per distinct value — but with two or more distinct values
the line-252 test raises before the loop, so no path is processed even
once, in either mode. -/
theorem two_distinct_paths_processed_zero_times :
    uniquePaths [some "s.a", some "s.b", some "s.a"] = ["s.a", "s.b"] ∧
    deleteS3ObjectsChecked wideListEnv [some "s.a", some "s.b", some "s.a"] true =
      .error () ∧
    deleteS3ObjectsChecked wideListEnv [some "s.a", some "s.b", some "s.a"] false =
      .error () :=
  ⟨rfl, rfl, rfl⟩

end DremioCleanup
